import Mathlib

/-!
Verification development for the `helper` agent runtime.

Shallow embeddings of the core subsystems, translated from the TypeScript
sources: the stuck detector (src/agent/stuck-detector.ts), the wait tool
(src/tools/wait.ts), tool-result truncation and the retrying executor
(src/agent/executor.ts and its retry variant), the config key-value store
(src/db/config.ts), memory keyword search (src/db/memory.ts), the token
bucket rate limiter (src/core/ratelimit.ts), and the ReAct agent loop
(src/agent/agent.ts) together with the task row updates it performs
(src/db/tasks.ts).

Modelling conventions: JS numbers that hold integral counters are `Nat`
or `Int`; fractional arithmetic (scores, config values, seconds) is `ℚ`;
`Math.log` is abstracted as a function parameter where it occurs; strings
are Lean `String`s; the database tables are association lists in rowid
order; `Bun.hash` is an abstract function parameter.
-/

namespace Helper

/-! ## Core data types (src/core/types.ts) -/

structure ImageData where
  mimeType : String
  data : String
deriving Repr, DecidableEq

structure FileAttachment where
  path : String
  mime : String
deriving Repr, DecidableEq

/-- `ToolResult` (src/core/types.ts): outcome of one tool execution. -/
structure ToolResult where
  success : Bool
  output : String
  error : Option String := none
  executionTime : Option Nat := none
  images : Option (List ImageData) := none
  files : Option (List FileAttachment) := none
deriving Repr, DecidableEq

/-! ## Stuck detector (src/agent/stuck-detector.ts, clamped variant)

Constants from src/core/constants.ts (`MAX_ITERATIONS`, `STUCK_DETECTION`). -/

def MAX_ITERATIONS_DEFAULT : Nat := 100
def MAX_ITERATIONS_MIN : Nat := 1
def MAX_ITERATIONS_MAX : Nat := 1000
def SAME_CALL_THRESHOLD : Nat := 3
def SINGLE_TOOL_THRESHOLD : Nat := 10

structure CallRecord where
  toolName : String
  inputHash : Nat
  iteration : Nat
deriving Repr, DecidableEq

structure StuckCheck where
  isStuck : Bool
  shouldTerminate : Bool
  message : Option String := none
deriving Repr, DecidableEq

structure StuckDetector where
  history : List CallRecord
  iteration : Nat
  maxIterations : Nat
deriving Repr, DecidableEq

/-- The constructor clamps `maxIterations` with
`Math.min(Math.max(maxIterations, MIN), MAX)`. -/
def mkStuckDetector (maxIterations : Nat) : StuckDetector :=
  { history := [], iteration := 0,
    maxIterations := min (max maxIterations MAX_ITERATIONS_MIN) MAX_ITERATIONS_MAX }

/-- `record(toolName, inputStr)`: increment the counter and push
`(toolName, hash(inputStr), iteration)`.  `hash` abstracts `Bun.hash`. -/
def StuckDetector.record (hash : String → Nat) (d : StuckDetector)
    (toolName inputStr : String) : StuckDetector :=
  { d with
    iteration := d.iteration + 1,
    history := d.history ++
      [{ toolName := toolName, inputHash := hash inputStr, iteration := d.iteration + 1 }] }

/-- JS `arr.slice(-n)`: the last `n` elements (the whole list if shorter). -/
def lastN (n : Nat) (l : List α) : List α := l.drop (l.length - n)

/-- First tool name of a slice (`recent[0].toolName`; `""` unreachable in use). -/
def headName : List CallRecord → String
| [] => ""
| r :: _ => r.toolName

/-- `recent.every(r => r.toolName === recent[0].toolName && r.inputHash === recent[0].inputHash)` -/
def allSameNameAndHash : List CallRecord → Bool
| [] => true
| r0 :: rest => (r0 :: rest).all fun r => r.toolName == r0.toolName && r.inputHash == r0.inputHash

/-- `recent.every(r => r.toolName === recent[0].toolName)` -/
def allSameName : List CallRecord → Bool
| [] => true
| r0 :: rest => (r0 :: rest).all fun r => r.toolName == r0.toolName

/-- `check()`: conditions evaluated in source order. -/
def StuckDetector.check (d : StuckDetector) : StuckCheck :=
  if d.maxIterations ≤ d.iteration then
    { isStuck := true, shouldTerminate := true,
      message := some ("Reached absolute maximum of " ++ toString d.maxIterations ++
        " iterations. Terminating to prevent excessive cost.") }
  else if d.history.length < SAME_CALL_THRESHOLD then
    { isStuck := false, shouldTerminate := false }
  else if allSameNameAndHash (lastN SAME_CALL_THRESHOLD d.history) then
    { isStuck := true, shouldTerminate := false,
      message := some ("Warning: You have called " ++
        headName (lastN SAME_CALL_THRESHOLD d.history) ++ " with the same input " ++
        toString SAME_CALL_THRESHOLD ++
        " times in a row. Try a different approach or different parameters.") }
  else if SINGLE_TOOL_THRESHOLD ≤ d.history.length &&
      allSameName (lastN SINGLE_TOOL_THRESHOLD d.history) then
    { isStuck := true, shouldTerminate := false,
      message := some ("Warning: You have used " ++
        headName (lastN SINGLE_TOOL_THRESHOLD d.history) ++ " " ++
        toString SINGLE_TOOL_THRESHOLD ++
        " times in a row. Consider using a different tool or summarizing your progress.") }
  else { isStuck := false, shouldTerminate := false }

/-- Record a whole sequence of `(toolName, inputStr)` calls in order. -/
def recordAll (hash : String → Nat) (d : StuckDetector)
    (calls : List (String × String)) : StuckDetector :=
  calls.foldl (fun a c => a.record hash c.1 c.2) d

/-- The name/fingerprint view of a history record. -/
def keyOf (r : CallRecord) : String × Nat := (r.toolName, r.inputHash)

/-- The name/fingerprint view of an input call. -/
def callKey (hash : String → Nat) (c : String × String) : String × Nat := (c.1, hash c.2)

/-- All pairs in the list agree with the head pair. -/
def allSameKey : List (String × Nat) → Bool
| [] => true
| k0 :: rest => (k0 :: rest).all fun k => k.1 == k0.1 && k.2 == k0.2

/-- All first components agree with the head. -/
def allSameFstKey : List (String × Nat) → Bool
| [] => true
| k0 :: rest => (k0 :: rest).all fun k => k.1 == k0.1

/-- Claim-level condition: the last 3 recorded calls share tool name and
input fingerprint (`hash` of the argument string). -/
def lastShareNameAndFp (hash : String → Nat) (calls : List (String × String)) : Bool :=
  allSameKey (lastN SAME_CALL_THRESHOLD (calls.map (callKey hash)))

/-- Claim-level condition: the last 10 recorded calls share the tool name. -/
def lastShareName (hash : String → Nat) (calls : List (String × String)) : Bool :=
  allSameFstKey (lastN SINGLE_TOOL_THRESHOLD (calls.map (callKey hash)))

/-! ## Wait tool (src/tools/wait.ts)

`args.seconds` is modelled as `Option ℚ`: `some q` when `Number(args.seconds)`
yields the number `q`, `none` when it yields `NaN` (missing or non-numeric). -/

/-- `Math.min(Math.max(Number(args.seconds) || 1, 1), 60)`.
`NaN || 1` and `0 || 1` both give `1`. -/
def waitSeconds (arg : Option ℚ) : ℚ :=
  let base : ℚ := match arg with
    | some q => if q = 0 then 1 else q
    | none => 1
  min (max base 1) 60

/-- The wait tool body: returns the success result and the slept seconds. -/
def waitToolExecute (arg : Option ℚ) : ToolResult × ℚ :=
  let seconds := waitSeconds arg
  ({ success := true, output := "Waited." }, seconds)

/-! ## Output truncation (truncateResultIfNeeded, src/agent/executor.ts) -/

/-- `result.images && result.images.length > 0` -/
def hasNonemptyImages (result : ToolResult) : Bool :=
  match result.images with
  | some imgs => imgs.length > 0
  | none => false

/-- Cap `output` at `maxChars` characters unless the result carries images.
`maxChars` is the configured `max_output_chars` cap. -/
def truncateResultIfNeeded (maxChars : Nat) (result : ToolResult) : ToolResult :=
  if hasNonemptyImages result then result
  else if maxChars < result.output.length then
    let newOutput := result.output.take maxChars ++ "\n... [truncated " ++
      toString (result.output.length - maxChars) ++ " chars]"
    { result with output := newOutput }
  else result

end Helper

namespace Helper

/-! ## Lemmas about the stuck detector -/

theorem recordAll_maxIterations (hash : String → Nat) (d : StuckDetector)
    (calls : List (String × String)) :
    (recordAll hash d calls).maxIterations = d.maxIterations := by
  induction calls generalizing d with
  | nil => rfl
  | cons c cs ih => simpa [recordAll, List.foldl_cons] using ih (d.record hash c.1 c.2)

theorem recordAll_iteration (hash : String → Nat) (d : StuckDetector)
    (calls : List (String × String)) :
    (recordAll hash d calls).iteration = d.iteration + calls.length := by
  induction calls generalizing d with
  | nil => rfl
  | cons c cs ih =>
      have h := ih (d.record hash c.1 c.2)
      simp [recordAll, List.foldl_cons] at h ⊢
      rw [h]
      simp [StuckDetector.record]
      omega

theorem recordAll_history_keys (hash : String → Nat) (d : StuckDetector)
    (calls : List (String × String)) :
    (recordAll hash d calls).history.map keyOf =
      d.history.map keyOf ++ calls.map (callKey hash) := by
  induction calls generalizing d with
  | nil => simp [recordAll]
  | cons c cs ih =>
      have h := ih (d.record hash c.1 c.2)
      simp [recordAll, List.foldl_cons] at h ⊢
      rw [h]
      simp [StuckDetector.record, keyOf, callKey]

theorem recordAll_history_length (hash : String → Nat) (d : StuckDetector)
    (calls : List (String × String)) :
    (recordAll hash d calls).history.length = d.history.length + calls.length := by
  have h := congrArg List.length (recordAll_history_keys hash d calls)
  simpa using h

theorem all_map_eq (f : α → β) (p : β → Bool) (l : List α) :
    (l.map f).all p = l.all fun a => p (f a) := by
  induction l with
  | nil => rfl
  | cons a l ih => simp [List.all_cons, ih]

theorem allSameNameAndHash_eq_key (l : List CallRecord) :
    allSameNameAndHash l = allSameKey (l.map keyOf) := by
  cases l with
  | nil => rfl
  | cons r0 rest =>
      show ((r0 :: rest).all fun r => r.toolName == r0.toolName && r.inputHash == r0.inputHash)
        = allSameKey (keyOf r0 :: rest.map keyOf)
      show _ = ((keyOf r0 :: rest.map keyOf).all
        fun k => k.1 == (keyOf r0).1 && k.2 == (keyOf r0).2)
      rw [List.all_cons, List.all_cons, all_map_eq]
      rfl

theorem allSameName_eq_key (l : List CallRecord) :
    allSameName l = allSameFstKey (l.map keyOf) := by
  cases l with
  | nil => rfl
  | cons r0 rest =>
      show ((r0 :: rest).all fun r => r.toolName == r0.toolName)
        = allSameFstKey (keyOf r0 :: rest.map keyOf)
      show _ = ((keyOf r0 :: rest.map keyOf).all fun k => k.1 == (keyOf r0).1)
      rw [List.all_cons, List.all_cons, all_map_eq]
      rfl

theorem lastN_map (f : α → β) (n : Nat) (l : List α) :
    lastN n (l.map f) = (lastN n l).map f := by
  unfold lastN
  rw [List.length_map, List.map_drop]

/-- C3: `StuckDetector.check` evaluates its conditions in order: iteration at
least the clamped max gives `(is_stuck, should_terminate) = (true, true)`;
otherwise last-3 identical (name, fingerprint) gives `(true, false)`;
otherwise last-10 same-name gives `(true, false)`; otherwise `(false, false)`.
The configured max is clamped to `[1, 1000]` at construction and the
iteration counter equals the number of recorded calls. -/
theorem stuckDetector_check_correct (hash : String → Nat) (m : Nat)
    (calls : List (String × String)) :
    (recordAll hash (mkStuckDetector m) calls).maxIterations = min (max m 1) 1000 ∧
    (recordAll hash (mkStuckDetector m) calls).iteration = calls.length ∧
    (((recordAll hash (mkStuckDetector m) calls).check.isStuck,
      (recordAll hash (mkStuckDetector m) calls).check.shouldTerminate) =
      if min (max m 1) 1000 ≤ calls.length then (true, true)
      else if SAME_CALL_THRESHOLD ≤ calls.length ∧ lastShareNameAndFp hash calls = true then
        (true, false)
      else if SINGLE_TOOL_THRESHOLD ≤ calls.length ∧ lastShareName hash calls = true then
        (true, false)
      else (false, false)) := by
  have hmax : (recordAll hash (mkStuckDetector m) calls).maxIterations = min (max m 1) 1000 := by
    rw [recordAll_maxIterations]; rfl
  have hiter : (recordAll hash (mkStuckDetector m) calls).iteration = calls.length := by
    rw [recordAll_iteration]; simp [mkStuckDetector]
  have hlen : (recordAll hash (mkStuckDetector m) calls).history.length = calls.length := by
    rw [recordAll_history_length]; simp [mkStuckDetector]
  have hkeys : (recordAll hash (mkStuckDetector m) calls).history.map keyOf =
      calls.map (callKey hash) := by
    rw [recordAll_history_keys]; simp [mkStuckDetector]
  refine ⟨hmax, hiter, ?_⟩
  set d := recordAll hash (mkStuckDetector m) calls with hd
  have hcond3 : allSameNameAndHash (lastN SAME_CALL_THRESHOLD d.history) =
      lastShareNameAndFp hash calls := by
    rw [allSameNameAndHash_eq_key, ← lastN_map, hkeys, lastShareNameAndFp]
  have hcond10 : allSameName (lastN SINGLE_TOOL_THRESHOLD d.history) =
      lastShareName hash calls := by
    rw [allSameName_eq_key, ← lastN_map, hkeys, lastShareName]
  rw [StuckDetector.check]
  by_cases h1 : d.maxIterations ≤ d.iteration
  · rw [if_pos h1]
    rw [hmax, hiter] at h1
    rw [if_pos h1]
  · rw [if_neg h1]
    rw [hmax, hiter] at h1
    rw [if_neg h1]
    by_cases h2 : d.history.length < SAME_CALL_THRESHOLD
    · rw [if_pos h2]
      rw [hlen] at h2
      have hn3 : ¬ (SAME_CALL_THRESHOLD ≤ calls.length ∧
          lastShareNameAndFp hash calls = true) :=
        fun hc => absurd hc.1 (not_le.mpr h2)
      have hlt10 : calls.length < SINGLE_TOOL_THRESHOLD := by
        have h2' := h2
        simp only [SAME_CALL_THRESHOLD] at h2'
        simp only [SINGLE_TOOL_THRESHOLD]
        omega
      have hn10 : ¬ (SINGLE_TOOL_THRESHOLD ≤ calls.length ∧
          lastShareName hash calls = true) :=
        fun hc => absurd hc.1 (not_le.mpr hlt10)
      rw [if_neg hn3, if_neg hn10]
    · rw [if_neg h2]
      rw [hlen] at h2
      by_cases h3 : allSameNameAndHash (lastN SAME_CALL_THRESHOLD d.history) = true
      · rw [if_pos h3]
        rw [hcond3] at h3
        have hc2 : SAME_CALL_THRESHOLD ≤ calls.length ∧ lastShareNameAndFp hash calls = true :=
          ⟨not_lt.mp h2, h3⟩
        rw [if_pos hc2]
      · rw [if_neg h3]
        rw [hcond3] at h3
        have hn3 : ¬ (SAME_CALL_THRESHOLD ≤ calls.length ∧
            lastShareNameAndFp hash calls = true) :=
          fun hc => h3 hc.2
        rw [if_neg hn3]
        by_cases h4 : (decide (SINGLE_TOOL_THRESHOLD ≤ d.history.length) &&
            allSameName (lastN SINGLE_TOOL_THRESHOLD d.history)) = true
        · rw [if_pos h4]
          simp only [Bool.and_eq_true, decide_eq_true_eq] at h4
          rw [hlen, hcond10] at h4
          have hc10 : SINGLE_TOOL_THRESHOLD ≤ calls.length ∧ lastShareName hash calls = true :=
            ⟨h4.1, h4.2⟩
          rw [if_pos hc10]
        · rw [if_neg h4]
          have hn10 : ¬ (SINGLE_TOOL_THRESHOLD ≤ calls.length ∧
              lastShareName hash calls = true) := by
            intro hc
            apply h4
            simp only [Bool.and_eq_true, decide_eq_true_eq]
            rw [hlen, hcond10]
            exact ⟨hc.1, hc.2⟩
          rw [if_neg hn10]

/-- C9: the slept duration is always in `[1, 60]` seconds, missing or
non-numeric or zero arguments sleep exactly 1 second, and the tool
returns success. -/
theorem waitTool_clamped (arg : Option ℚ) :
    1 ≤ (waitToolExecute arg).2 ∧ (waitToolExecute arg).2 ≤ 60 ∧
    (waitToolExecute arg).1.success = true ∧
    (waitToolExecute none).2 = 1 ∧ (waitToolExecute (some 0)).2 = 1 := by
  refine ⟨?_, ?_, rfl, by norm_num [waitToolExecute, waitSeconds],
    by norm_num [waitToolExecute, waitSeconds]⟩
  · have : (waitToolExecute arg).2 = min (max (match arg with
      | some q => if q = 0 then (1 : ℚ) else q
      | none => 1) 1) 60 := rfl
    rw [this]
    have h60 : (1 : ℚ) ≤ 60 := by norm_num
    exact le_min (le_max_right _ _) h60
  · exact min_le_right _ _

/-- C10: result shaping modifies at most `output`: every other field is
returned unchanged, and `output` itself is unchanged whenever the result
carries at least one image or its length does not exceed the cap. -/
theorem truncateResult_frame (maxChars : Nat) (r : ToolResult) :
    (truncateResultIfNeeded maxChars r).success = r.success ∧
    (truncateResultIfNeeded maxChars r).error = r.error ∧
    (truncateResultIfNeeded maxChars r).executionTime = r.executionTime ∧
    (truncateResultIfNeeded maxChars r).images = r.images ∧
    (truncateResultIfNeeded maxChars r).files = r.files ∧
    (∀ imgs, r.images = some imgs → imgs ≠ [] →
      (truncateResultIfNeeded maxChars r).output = r.output) ∧
    (r.output.length ≤ maxChars → (truncateResultIfNeeded maxChars r).output = r.output) := by
  unfold truncateResultIfNeeded
  by_cases himg : hasNonemptyImages r = true
  · rw [if_pos himg]
    exact ⟨rfl, rfl, rfl, rfl, rfl, fun _ _ _ => rfl, fun _ => rfl⟩
  · rw [if_neg himg]
    by_cases hlen : maxChars < r.output.length
    · rw [if_pos hlen]
      refine ⟨rfl, rfl, rfl, rfl, rfl, ?_, ?_⟩
      · intro imgs hsome hne
        exfalso
        apply himg
        unfold hasNonemptyImages
        rw [hsome]
        simp only [gt_iff_lt, decide_eq_true_eq]
        exact List.length_pos.mpr hne
      · intro h; omega
    · rw [if_neg hlen]
      exact ⟨rfl, rfl, rfl, rfl, rfl, fun _ _ _ => rfl, fun _ => rfl⟩

/-- Witness for `truncateResult_frame` at a concrete result. -/
theorem truncateResult_frame_witness :
    (truncateResultIfNeeded 10 { success := true, output := "ok" }).output = "ok" :=
  (truncateResult_frame 10 { success := true, output := "ok" }).2.2.2.2.2.2 (by decide)

end Helper

namespace Helper

/-! ## Config key-value store (src/db/config.ts)

The `config` table is an association list in rowid order; SQL upsert
replaces an existing row in place or appends a fresh one. -/

namespace Config

/-- `Char.toLower`-based check for the character class `[a-z0-9.-]` under
the case-insensitive flag of `/^gemini-[a-z0-9.-]+$/i`. -/
def isModelChar (c : Char) : Bool :=
  ('a' ≤ c.toLower && c.toLower ≤ 'z') || c.isDigit || c == '.' || c == '-'

/-- Char-list version of `startsWith`. -/
def startsWithL : List Char → List Char → Bool
| [], _ => true
| _ :: _, [] => false
| a :: as, b :: bs => a == b && startsWithL as bs

/-- The model-name regex `/^gemini-[a-z0-9.-]+$/i`. -/
def matchesModelPattern (s : String) : Bool :=
  let l := s.toList.map Char.toLower
  let pre := "gemini-".toList
  startsWithL pre l && decide (pre.length < l.length) && (l.drop pre.length).all isModelChar

inductive RuleType
| num
| bool
| str
deriving Repr, DecidableEq

/-- A per-key validation rule (`ValidationRule` in src/db/config.ts).
Integer bounds suffice: every bound in the table is integral. -/
structure ValidationRule where
  type : RuleType
  min : Option Int := none
  max : Option Int := none
  pattern : Option (String → Bool) := none

/-- `DEFAULTS` from src/db/config.ts. -/
def DEFAULTS (key : String) : Option String :=
  if key == "max_iterations" then some "100"
  else if key == "thinking_budget" then some "10000"
  else if key == "tool_timeout_ms" then some "30000"
  else if key == "code_timeout_ms" then some "60000"
  else if key == "max_output_chars" then some "10000"
  else if key == "verbose" then some "false"
  else if key == "model" then some "gemini-2.5-flash"
  else if key == "temperature" then some "0.7"
  else none

/-- `VALIDATION_RULES` from src/db/config.ts. -/
def VALIDATION_RULES (key : String) : Option ValidationRule :=
  if key == "max_iterations" then some { type := .num, min := some 1, max := some 1000 }
  else if key == "thinking_budget" then some { type := .num, min := some 0, max := some 100000 }
  else if key == "tool_timeout_ms" then some { type := .num, min := some 1000, max := some 600000 }
  else if key == "code_timeout_ms" then some { type := .num, min := some 1000, max := some 600000 }
  else if key == "max_output_chars" then some { type := .num, min := some 1000, max := some 100000 }
  else if key == "verbose" then some { type := .bool }
  else if key == "model" then some { type := .str, pattern := some matchesModelPattern }
  else if key == "temperature" then some { type := .num, min := some 0, max := some 2 }
  else none

/-- Strip leading and trailing whitespace (JS `Number` trims its input). -/
def trimChars (l : List Char) : List Char :=
  ((l.dropWhile Char.isWhitespace).reverse.dropWhile Char.isWhitespace).reverse

def digitsToNat (l : List Char) : Nat :=
  l.foldl (fun a c => a * 10 + (c.toNat - 48)) 0

/-- An exact decimal number `num / 10 ^ exp`, the value of a decimal
literal.  Using an unreduced representation keeps all comparisons in
integer arithmetic. -/
structure DecNum where
  num : Int
  exp : Nat
deriving Repr, DecidableEq

/-- The rational value of a decimal number. -/
def DecNum.toRat (d : DecNum) : ℚ := (d.num : ℚ) / (10 : ℚ) ^ d.exp

/-- `d < b` for an integer bound `b`. -/
def DecNum.ltInt (d : DecNum) (b : Int) : Bool := d.num < b * (10 : Int) ^ d.exp

/-- `b < d` for an integer bound `b`. -/
def DecNum.gtInt (d : DecNum) (b : Int) : Bool := b * (10 : Int) ^ d.exp < d.num

/-- Parse an unsigned decimal literal `digits [. digits]` (at least one
digit overall), as JS `Number` does for plain decimal strings. -/
def parseDecimal (l : List Char) : Option DecNum :=
  let ip := l.takeWhile (fun c => c ≠ '.')
  let rest := l.drop ip.length
  match rest with
  | [] => if ip ≠ [] && ip.all Char.isDigit then some ⟨digitsToNat ip, 0⟩ else none
  | _ :: fp =>
      if (ip.all Char.isDigit && fp.all Char.isDigit) && (ip ≠ [] || fp ≠ []) then
        some ⟨digitsToNat ip * 10 ^ fp.length + digitsToNat fp, fp.length⟩
      else none

/-- JS `Number(value)` on decimal strings: `some d` for a numeric result,
`none` for `NaN`.  The empty (or all-whitespace) string converts to `0`. -/
def parseNumber (s : String) : Option DecNum :=
  let t := trimChars s.toList
  if t.isEmpty then some ⟨0, 0⟩
  else match t with
    | '-' :: rest => (parseDecimal rest).map (fun d => ⟨-d.num, d.exp⟩)
    | '+' :: rest => parseDecimal rest
    | l => parseDecimal l

/-- Result of `validateValue`: the `reason` strings are omitted, only
`valid` and `sanitized` are observed by callers. -/
structure ValidationOutcome where
  valid : Bool
  sanitized : Option String := none
deriving Repr, DecidableEq

/-- The `max` bound check of the numeric case of `validateValue`. -/
def checkMax (mx : Option Int) (n : DecNum) : ValidationOutcome :=
  match mx with
  | some b => if n.gtInt b then { valid := false, sanitized := some (toString b) }
      else { valid := true }
  | none => { valid := true }

/-- The `min`-then-`max` bound checks of the numeric case of `validateValue`. -/
def checkRange (mn mx : Option Int) (n : DecNum) : ValidationOutcome :=
  match mn with
  | some b => if n.ltInt b then { valid := false, sanitized := some (toString b) }
      else checkMax mx n
  | none => checkMax mx n

/-- `validateValue(key, value)` from src/db/config.ts. -/
def validateValue (key value : String) : ValidationOutcome :=
  match VALIDATION_RULES key with
  | none => { valid := true }
  | some rule =>
    match rule.type with
    | .num =>
      match parseNumber value with
      | none => { valid := false }
      | some n => checkRange rule.min rule.max n
    | .bool =>
      if value == "true" || value == "false" || value == "1" || value == "0" then
        { valid := true }
      else { valid := false, sanitized := some "false" }
    | .str =>
      match rule.pattern with
      | some p => if p value then { valid := true } else { valid := false }
      | none => { valid := true }

/-- The `config` table, rows in rowid order. -/
abbrev ConfigDB := List (String × String)

/-- `SELECT value FROM config WHERE key = ?`. -/
def dbLookup (db : ConfigDB) (key : String) : Option String :=
  match db with
  | [] => none
  | (k, v) :: rest => if k == key then some v else dbLookup rest key

/-- `INSERT ... ON CONFLICT(key) DO UPDATE`. -/
def upsertConfig (db : ConfigDB) (key value : String) : ConfigDB :=
  match db with
  | [] => [(key, value)]
  | (k, v) :: rest =>
      if k == key then (key, value) :: rest else (k, v) :: upsertConfig rest key value

/-- `get(key)`: row value overlaid on defaults, validated on read; an
invalid value falls back to `sanitized ?? DEFAULTS[key]`. -/
def get (db : ConfigDB) (key : String) : Option String :=
  let value := match dbLookup db key with
    | some v => some v
    | none => DEFAULTS key
  match value with
  | none => none
  | some v =>
    let validation := validateValue key v
    if validation.valid then some v
    else match validation.sanitized with
      | some s => some s
      | none => DEFAULTS key

/-- `set(key, value)`: validate, throw on invalid, else upsert. -/
def set (db : ConfigDB) (key value : String) : Except String ConfigDB :=
  if (validateValue key value).valid then Except.ok (upsertConfig db key value)
  else Except.error "Invalid config value"

/-- `remove(key)`: critical keys cannot be deleted. -/
def remove (db : ConfigDB) (key : String) : Except String ConfigDB :=
  if key == "max_iterations" || key == "tool_timeout_ms" then
    Except.error "Cannot remove critical config key"
  else Except.ok (db.filter (fun kv => kv.1 ≠ key))

/-- Fallback predicted by the spec for an invalid persisted value:
an out-of-range numeric value yields the nearest bound, any other invalid
value yields the built-in default. -/
def specFallback (key value : String) : Option String :=
  match VALIDATION_RULES key with
  | none => DEFAULTS key
  | some rule =>
    match rule.type with
    | .num =>
      match parseNumber value with
      | none => DEFAULTS key
      | some n =>
        match rule.min with
        | some mn =>
            if n.ltInt mn then some (toString mn)
            else (match rule.max with
              | some mx => if n.gtInt mx then some (toString mx) else DEFAULTS key
              | none => DEFAULTS key)
        | none =>
            match rule.max with
            | some mx => if n.gtInt mx then some (toString mx) else DEFAULTS key
            | none => DEFAULTS key
    | .bool => DEFAULTS key
    | .str => DEFAULTS key

end Config

end Helper

namespace Helper

namespace Config

/-- The read fallback computed by `get` for an invalid stored value:
`validation.sanitized ?? DEFAULTS[key]`. -/
def sanitizedOrDefault (k v : String) : Option String :=
  match (validateValue k v).sanitized with
  | some s => some s
  | none => DEFAULTS k

theorem dbLookup_upsert (db : ConfigDB) (key value : String) :
    dbLookup (upsertConfig db key value) key = some value := by
  induction db with
  | nil => simp [upsertConfig, dbLookup]
  | cons kv rest ih =>
      obtain ⟨k, v⟩ := kv
      by_cases h : k == key
      · simp [upsertConfig, h, dbLookup]
      · simp [upsertConfig, h, dbLookup, ih]

theorem get_of_invalid_row (db : ConfigDB) (k v : String)
    (hrow : dbLookup db k = some v) (hinv : (validateValue k v).valid = false) :
    get db k = sanitizedOrDefault k v := by
  unfold get sanitizedOrDefault
  rw [hrow]
  simp only [hinv, Bool.false_eq_true, if_false]

theorem ruleKeys {k : String} {rule : ValidationRule} (h : VALIDATION_RULES k = some rule) :
    k = "max_iterations" ∨ k = "thinking_budget" ∨ k = "tool_timeout_ms" ∨
    k = "code_timeout_ms" ∨ k = "max_output_chars" ∨ k = "verbose" ∨
    k = "model" ∨ k = "temperature" := by
  unfold VALIDATION_RULES at h
  split_ifs at h with h1 h2 h3 h4 h5 h6 h7 h8
  · exact Or.inl (eq_of_beq h1)
  · exact Or.inr (Or.inl (eq_of_beq h2))
  · exact Or.inr (Or.inr (Or.inl (eq_of_beq h3)))
  · exact Or.inr (Or.inr (Or.inr (Or.inl (eq_of_beq h4))))
  · exact Or.inr (Or.inr (Or.inr (Or.inr (Or.inl (eq_of_beq h5)))))
  · exact Or.inr (Or.inr (Or.inr (Or.inr (Or.inr (Or.inl (eq_of_beq h6))))))
  · exact Or.inr (Or.inr (Or.inr (Or.inr (Or.inr (Or.inr (Or.inl (eq_of_beq h7)))))))
  · exact Or.inr (Or.inr (Or.inr (Or.inr (Or.inr (Or.inr (Or.inr (eq_of_beq h8)))))))

theorem num_fallback (k : String) (mn mx : Int) (v : String)
    (hrule : VALIDATION_RULES k = some { type := .num, min := some mn, max := some mx })
    (hmnv : parseNumber (toString mn) = some ⟨mn, 0⟩)
    (hmxv : parseNumber (toString mx) = some ⟨mx, 0⟩)
    (hdv : ∀ d, DEFAULTS k = some d → ∃ q, parseNumber d = some q)
    (hinv : (validateValue k v).valid = false) :
    sanitizedOrDefault k v = specFallback k v ∧ sanitizedOrDefault k v ≠ some v := by
  have hval : validateValue k v =
      (match parseNumber v with
        | none => { valid := false }
        | some n => checkRange (some mn) (some mx) n) := by
    unfold validateValue
    rw [hrule]
  have hspec : specFallback k v =
      (match parseNumber v with
        | none => DEFAULTS k
        | some n =>
            if n.ltInt mn then some (toString mn)
            else if n.gtInt mx then some (toString mx) else DEFAULTS k) := by
    unfold specFallback
    rw [hrule]
  cases hp : parseNumber v with
  | none =>
      constructor
      · rw [sanitizedOrDefault, hval, hspec, hp]
      · rw [sanitizedOrDefault, hval, hp]
        cases hdef : DEFAULTS k with
        | none => simp
        | some d =>
            obtain ⟨q, hq⟩ := hdv d hdef
            intro heq
            have hd2 : d = v := by injection heq
            rw [hd2, hp] at hq
            exact absurd hq (by simp)
  | some n =>
      by_cases h1 : n.ltInt mn = true
      · constructor
        · rw [sanitizedOrDefault, hval, hspec, hp]
          simp only [checkRange, if_pos h1]
        · rw [sanitizedOrDefault, hval, hp]
          simp only [checkRange, if_pos h1]
          intro heq
          have hs : toString mn = v := by injection heq
          rw [hs, hp] at hmnv
          have hn : n = (⟨mn, 0⟩ : DecNum) := by injection hmnv
          rw [hn] at h1
          simp [DecNum.ltInt] at h1
      · by_cases h2 : n.gtInt mx = true
        · constructor
          · rw [sanitizedOrDefault, hval, hspec, hp]
            simp only [checkRange, checkMax, if_neg h1, if_pos h2]
          · rw [sanitizedOrDefault, hval, hp]
            simp only [checkRange, checkMax, if_neg h1, if_pos h2]
            intro heq
            have hs : toString mx = v := by injection heq
            rw [hs, hp] at hmxv
            have hn : n = (⟨mx, 0⟩ : DecNum) := by injection hmxv
            rw [hn] at h2
            simp [DecNum.gtInt] at h2
        · exfalso
          rw [hval, hp] at hinv
          simp only [checkRange, checkMax, if_neg h1, if_neg h2] at hinv
          exact absurd hinv (by simp)

theorem bool_fallback (v : String) (hinv : (validateValue "verbose" v).valid = false) :
    sanitizedOrDefault "verbose" v = specFallback "verbose" v ∧
    sanitizedOrDefault "verbose" v ≠ some v := by
  have hval : validateValue "verbose" v =
      (if v == "true" || v == "false" || v == "1" || v == "0" then
        { valid := true }
      else { valid := false, sanitized := some "false" }) := rfl
  by_cases hb : (v == "true" || v == "false" || v == "1" || v == "0") = true
  · exfalso
    rw [hval, if_pos hb] at hinv
    exact absurd hinv (by simp)
  · constructor
    · rw [sanitizedOrDefault, hval, if_neg hb]
      rfl
    · rw [sanitizedOrDefault, hval, if_neg hb]
      intro heq
      have hs : "false" = v := by injection heq
      apply hb
      rw [← hs]
      decide

theorem model_fallback (v : String) (hinv : (validateValue "model" v).valid = false) :
    sanitizedOrDefault "model" v = specFallback "model" v ∧
    sanitizedOrDefault "model" v ≠ some v := by
  have hval : validateValue "model" v =
      (if matchesModelPattern v then { valid := true } else { valid := false }) := rfl
  by_cases hm : matchesModelPattern v = true
  · exfalso
    rw [hval, if_pos hm] at hinv
    exact absurd hinv (by simp)
  · constructor
    · rw [sanitizedOrDefault, hval, if_neg hm]
      rfl
    · rw [sanitizedOrDefault, hval, if_neg hm]
      intro heq
      have h3 : some "gemini-2.5-flash" = some v := heq
      have h4 : "gemini-2.5-flash" = v := by injection h3
      apply hm
      rw [← h4]
      decide

end Config

end Helper

namespace Helper

namespace Config

/-- C4: `set(key, value)` fails (throws, storing nothing) whenever the value
violates the key's validation rule; after any successful `set`, `get(key)`
returns that value and the value satisfies the rule; concretely,
`set("temperature","0.1")` succeeds, `set("temperature","2.5")` fails,
`set("max_iterations","0")` fails, and `remove("max_iterations")` fails. -/
theorem config_set_validated (db : ConfigDB) (k v : String) :
    ((validateValue k v).valid = false →
      set db k v = Except.error "Invalid config value") ∧
    (∀ db2, set db k v = Except.ok db2 →
      (validateValue k v).valid = true ∧ get db2 k = some v) ∧
    set db "temperature" "0.1" = Except.ok (upsertConfig db "temperature" "0.1") ∧
    set db "temperature" "2.5" = Except.error "Invalid config value" ∧
    set db "max_iterations" "0" = Except.error "Invalid config value" ∧
    remove db "max_iterations" = Except.error "Cannot remove critical config key" := by
  refine ⟨?_, ?_, ?_, ?_, ?_, ?_⟩
  · intro h
    simp [set, h]
  · intro db2 hok
    by_cases hv : (validateValue k v).valid = true
    · refine ⟨hv, ?_⟩
      simp only [set, hv, if_true, Except.ok.injEq] at hok
      rw [← hok]
      unfold get
      rw [dbLookup_upsert]
      simp only [hv, if_true]
    · have hv2 : (validateValue k v).valid = false := by
        revert hv
        cases (validateValue k v).valid <;> simp
      simp [set, hv2] at hok
  · have h : (validateValue "temperature" "0.1").valid = true := by decide
    simp [set, h]
  · have h : (validateValue "temperature" "2.5").valid = false := by decide
    simp [set, h]
  · have h : (validateValue "max_iterations" "0").valid = false := by decide
    simp [set, h]
  · simp [remove]

/-- Witness for `config_set_validated`: setting `temperature` to `0.1` on the
empty store succeeds and reads back. -/
theorem config_set_validated_witness :
    get (upsertConfig [] "temperature" "0.1") "temperature" = some "0.1" :=
  ((config_set_validated [] "temperature" "0.1").2.1
    (upsertConfig [] "temperature" "0.1")
    (config_set_validated [] "temperature" "0.1").2.2.1).2

/-- C5: for a key with a validation rule, an invalid persisted value is not
returned by `get`: a numeric value outside the key's range yields the nearest
bound, any other invalid value yields the built-in default. -/
theorem config_get_invalid_fallback (db : ConfigDB) (k v : String)
    (hrow : dbLookup db k = some v)
    (hrule : (VALIDATION_RULES k).isSome = true)
    (hinv : (validateValue k v).valid = false) :
    get db k = specFallback k v ∧ get db k ≠ some v := by
  obtain ⟨rule, hr⟩ := Option.isSome_iff_exists.mp hrule
  have hget := get_of_invalid_row db k v hrow hinv
  have main : sanitizedOrDefault k v = specFallback k v ∧ sanitizedOrDefault k v ≠ some v := by
    rcases ruleKeys hr with rfl | rfl | rfl | rfl | rfl | rfl | rfl | rfl
    · exact num_fallback "max_iterations" 1 1000 v rfl (by decide) (by decide)
        (by
          intro d hd
          have hd2 : "100" = d := by injection hd
          rw [← hd2]
          exact ⟨⟨100, 0⟩, by decide⟩) hinv
    · exact num_fallback "thinking_budget" 0 100000 v rfl (by decide) (by decide)
        (by
          intro d hd
          have hd2 : "10000" = d := by injection hd
          rw [← hd2]
          exact ⟨⟨10000, 0⟩, by decide⟩) hinv
    · exact num_fallback "tool_timeout_ms" 1000 600000 v rfl (by decide) (by decide)
        (by
          intro d hd
          have hd2 : "30000" = d := by injection hd
          rw [← hd2]
          exact ⟨⟨30000, 0⟩, by decide⟩) hinv
    · exact num_fallback "code_timeout_ms" 1000 600000 v rfl (by decide) (by decide)
        (by
          intro d hd
          have hd2 : "60000" = d := by injection hd
          rw [← hd2]
          exact ⟨⟨60000, 0⟩, by decide⟩) hinv
    · exact num_fallback "max_output_chars" 1000 100000 v rfl (by decide) (by decide)
        (by
          intro d hd
          have hd2 : "10000" = d := by injection hd
          rw [← hd2]
          exact ⟨⟨10000, 0⟩, by decide⟩) hinv
    · exact bool_fallback v hinv
    · exact model_fallback v hinv
    · exact num_fallback "temperature" 0 2 v rfl (by decide) (by decide)
        (by
          intro d hd
          have hd2 : "0.7" = d := by injection hd
          rw [← hd2]
          exact ⟨⟨7, 1⟩, by decide⟩) hinv
  refine ⟨hget.trans main.1, ?_⟩
  rw [hget]
  exact main.2

/-- Witness for `config_get_invalid_fallback`: a stored `temperature` of `2.5`
reads back as the bound `2`, not as the stored value. -/
theorem config_get_invalid_fallback_witness :
    get [("temperature", "2.5")] "temperature" = specFallback "temperature" "2.5" ∧
    get [("temperature", "2.5")] "temperature" ≠ some "2.5" :=
  config_get_invalid_fallback [("temperature", "2.5")] "temperature" "2.5"
    (by decide) (by decide) (by decide)

end Config

end Helper

namespace Helper

/-! ## Memory keyword search (src/db/memory.ts)

The `memory` table is a list of rows in rowid order (`SELECT * FROM memory`
returns rows in this order and JS `Array.prototype.sort` is stable, so the
stable `List.insertionSort` models the sort step).  `Math.log(x + 1)` is the
abstract parameter `log1p`; the float weights `0.1` and `0.2` are the exact
rationals `1/10` and `1/5`. -/

structure MemoryRow where
  id : Nat
  key : String
  value : String
  category : String
  importance : Int
  access_count : Nat
  updated_at : Int
deriving Repr, DecidableEq

/-- Split a character list at whitespace (JS `split(/\s+/)` before the
`filter(Boolean)` step produces exactly the nonempty runs kept here). -/
def splitWsGo : List Char → List Char → List (List Char)
| [], acc => [acc.reverse]
| c :: rest, acc =>
    if c.isWhitespace then acc.reverse :: splitWsGo rest []
    else splitWsGo rest (c :: acc)

/-- `query.toLowerCase().split(/\s+/).filter(Boolean)`. -/
def tokenize (query : String) : List (List Char) :=
  (splitWsGo (query.toList.map Char.toLower) []).filter (fun t => !t.isEmpty)

/-- `text.includes(kw)` on char lists. -/
def occursIn (needle : List Char) : List Char → Bool
| [] => needle.isEmpty
| c :: rest => Config.startsWithL needle (c :: rest) || occursIn needle rest

/-- The lowercased haystack `` `${row.key} ${row.value} ${row.category}` ``. -/
def memoryText (r : MemoryRow) : List Char :=
  (r.key ++ " " ++ r.value ++ " " ++ r.category).toList.map Char.toLower

/-- Number of query tokens occurring in the row text. -/
def matchScore (keywords : List (List Char)) (r : MemoryRow) : Nat :=
  (keywords.filter (fun kw => occursIn kw (memoryText r))).length

/-- The relevance score of a row. -/
def score (log1p : Nat → ℚ) (keywords : List (List Char)) (r : MemoryRow) : ℚ :=
  (matchScore keywords r : ℚ) + (r.importance : ℚ) * (1 / 10) +
    log1p r.access_count * (1 / 5)

/-- `ORDER BY importance DESC, updated_at DESC` of the empty-keyword branch. -/
def impUpdGe (a b : MemoryRow) : Prop :=
  b.importance < a.importance ∨ (b.importance = a.importance ∧ b.updated_at ≤ a.updated_at)

instance : DecidableRel impUpdGe := fun a b => by
  unfold impUpdGe
  exact inferInstance

/-- Descending-score order used by `scored.sort((a, b) => b.score - a.score)`. -/
def scoreGe (log1p : Nat → ℚ) (keywords : List (List Char)) (a b : MemoryRow) : Prop :=
  score log1p keywords b ≤ score log1p keywords a

instance (log1p : Nat → ℚ) (keywords : List (List Char)) :
    DecidableRel (scoreGe log1p keywords) := fun a b => by
  unfold scoreGe
  exact inferInstance

/-- `searchMemory(query, limit)` from src/db/memory.ts. -/
def searchMemory (log1p : Nat → ℚ) (tbl : List MemoryRow) (query : String)
    (limit : Nat := 10) : List MemoryRow :=
  let keywords := tokenize query
  if keywords.isEmpty then
    (tbl.insertionSort impUpdGe).take limit
  else
    let scored := tbl.map (fun r => (r, score log1p keywords r))
    ((((scored.filter (fun s => decide (0 < s.2))).insertionSort
        (fun a b => b.2 ≤ a.2))).take limit).map (fun s => s.1)

/-- The ordering the claim asserts: descending score with ties broken by
importance, then by `updated_at`. -/
def claimRel (log1p : Nat → ℚ) (keywords : List (List Char)) (a b : MemoryRow) : Prop :=
  score log1p keywords b < score log1p keywords a ∨
  (score log1p keywords a = score log1p keywords b ∧
    (b.importance < a.importance ∨
      (a.importance = b.importance ∧ b.updated_at ≤ a.updated_at)))

instance (log1p : Nat → ℚ) (keywords : List (List Char)) :
    DecidableRel (claimRel log1p keywords) := fun a b => by
  unfold claimRel
  exact inferInstance

/-- Search as the claim states it: positive-score rows sorted by score
descending with ties broken by importance, then `updated_at`. -/
def specSearchClaim (log1p : Nat → ℚ) (tbl : List MemoryRow) (query : String)
    (limit : Nat := 10) : List MemoryRow :=
  let keywords := tokenize query
  ((tbl.filter (fun r => decide (0 < score log1p keywords r))).insertionSort
    (claimRel log1p keywords)).take limit

end Helper

namespace Helper

theorem filter_map_pair (lp : Nat → ℚ) (kws : List (List Char)) (tbl : List MemoryRow) :
    (tbl.map (fun r => (r, score lp kws r))).filter (fun s => decide (0 < s.2)) =
      (tbl.filter (fun r => decide (0 < score lp kws r))).map
        (fun r => (r, score lp kws r)) := by
  induction tbl with
  | nil => rfl
  | cons r t ih =>
      by_cases h : 0 < score lp kws r
      · simp [List.map_cons, List.filter_cons, h, ih]
      · simp [List.map_cons, List.filter_cons, h, ih]

theorem orderedInsert_map_fst (lp : Nat → ℚ) (kws : List (List Char))
    (p : MemoryRow × ℚ) (l : List (MemoryRow × ℚ))
    (hp : p.2 = score lp kws p.1) (hl : ∀ q ∈ l, q.2 = score lp kws q.1) :
    (List.orderedInsert (fun a b : MemoryRow × ℚ => b.2 ≤ a.2) p l).map Prod.fst =
      List.orderedInsert (scoreGe lp kws) p.1 (l.map Prod.fst) := by
  induction l with
  | nil => rfl
  | cons q t ih =>
      have hq := hl q (by simp)
      have ht : ∀ x ∈ t, x.2 = score lp kws x.1 := fun x hx => hl x (by simp [hx])
      rw [List.orderedInsert, List.map_cons, List.orderedInsert]
      by_cases h : q.2 ≤ p.2
      · have h2 : scoreGe lp kws p.1 q.1 := by
          unfold scoreGe
          rw [← hp, ← hq]
          exact h
        rw [if_pos h, if_pos h2, List.map_cons, List.map_cons]
      · have h2 : ¬ scoreGe lp kws p.1 q.1 := by
          unfold scoreGe
          rw [← hp, ← hq]
          exact h
        rw [if_neg h, if_neg h2, List.map_cons, ih ht]

theorem insertionSort_map_fst (lp : Nat → ℚ) (kws : List (List Char))
    (l : List (MemoryRow × ℚ)) (hl : ∀ q ∈ l, q.2 = score lp kws q.1) :
    (List.insertionSort (fun a b : MemoryRow × ℚ => b.2 ≤ a.2) l).map Prod.fst =
      List.insertionSort (scoreGe lp kws) (l.map Prod.fst) := by
  induction l with
  | nil => rfl
  | cons p t ih =>
      have hp := hl p (by simp)
      have ht : ∀ x ∈ t, x.2 = score lp kws x.1 := fun x hx => hl x (by simp [hx])
      have hsorted : ∀ q ∈ List.insertionSort (fun a b : MemoryRow × ℚ => b.2 ≤ a.2) t,
          q.2 = score lp kws q.1 := fun q hq =>
        ht q ((List.perm_insertionSort _ t).mem_iff.mp hq)
      rw [List.insertionSort, List.map_cons, List.insertionSort,
        orderedInsert_map_fst lp kws p _ hp hsorted, ih ht]

/-- C6 (amended): for a query with nonempty keyword list, `searchMemory`
returns exactly the positively-scored rows, stably sorted by descending
score (ties keep table order), truncated to `limit`; hence the output is
sorted by descending score, only contains positively-scored table rows, and
has length at most `limit`. -/
theorem searchMemory_sound (lp : Nat → ℚ) (tbl : List MemoryRow) (query : String)
    (limit : Nat) (hk : tokenize query ≠ []) :
    searchMemory lp tbl query limit =
      ((tbl.filter (fun r => decide (0 < score lp (tokenize query) r))).insertionSort
        (scoreGe lp (tokenize query))).take limit ∧
    (searchMemory lp tbl query limit).Sorted (scoreGe lp (tokenize query)) ∧
    (∀ r ∈ searchMemory lp tbl query limit, 0 < score lp (tokenize query) r ∧ r ∈ tbl) ∧
    (searchMemory lp tbl query limit).length ≤ limit := by
  have hne : (tokenize query).isEmpty = false := by
    cases h : tokenize query with
    | nil => exact absurd h hk
    | cons a t => rfl
  have hmain : searchMemory lp tbl query limit =
      ((tbl.filter (fun r => decide (0 < score lp (tokenize query) r))).insertionSort
        (scoreGe lp (tokenize query))).take limit := by
    unfold searchMemory
    simp only [hne, Bool.false_eq_true, if_false]
    rw [filter_map_pair]
    rw [List.map_take]
    congr 1
    rw [insertionSort_map_fst]
    · congr 1
      induction (tbl.filter (fun r => decide (0 < score lp (tokenize query) r))) with
      | nil => rfl
      | cons r t ih => simp [List.map_cons, ih]
    · intro q hq
      obtain ⟨r, _, rfl⟩ := List.mem_map.mp hq
      rfl
  haveI : IsTotal MemoryRow (scoreGe lp (tokenize query)) :=
    ⟨fun a b => le_total _ _⟩
  haveI : IsTrans MemoryRow (scoreGe lp (tokenize query)) :=
    ⟨fun a b c h1 h2 => le_trans h2 h1⟩
  have hsorted : (searchMemory lp tbl query limit).Sorted (scoreGe lp (tokenize query)) := by
    rw [hmain]
    exact List.Pairwise.sublist (List.take_sublist _ _) (List.sorted_insertionSort _ _)
  have hmem : ∀ r ∈ searchMemory lp tbl query limit,
      0 < score lp (tokenize query) r ∧ r ∈ tbl := by
    intro r hr
    rw [hmain] at hr
    have h2 : r ∈ (tbl.filter (fun r => decide (0 < score lp (tokenize query) r))).insertionSort
        (scoreGe lp (tokenize query)) := (List.take_sublist _ _).subset hr
    have h3 : r ∈ tbl.filter (fun r => decide (0 < score lp (tokenize query) r)) :=
      (List.perm_insertionSort _ _).mem_iff.mp h2
    have h4 := List.of_mem_filter h3
    exact ⟨by simpa using h4, List.mem_of_mem_filter h3⟩
  refine ⟨hmain, hsorted, hmem, ?_⟩
  rw [hmain]
  simp [List.length_take]

/-- Witness for `searchMemory_sound` on a one-row table. -/
theorem searchMemory_sound_witness :
    searchMemory (fun _ => 0) [⟨1, "foo", "", "general", 5, 0, 1⟩] "foo" 10 =
      (((([⟨1, "foo", "", "general", 5, 0, 1⟩] : List MemoryRow).filter
        (fun r => decide (0 < score (fun _ => 0) (tokenize "foo") r))).insertionSort
        (scoreGe (fun _ => 0) (tokenize "foo"))).take 10) :=
  (searchMemory_sound (fun _ => 0) [⟨1, "foo", "", "general", 5, 0, 1⟩] "foo" 10
    (by decide)).1

end Helper

namespace Helper

/-- A zero logarithm instance: both counterexample rows have
`access_count = 0`, so their scores agree for every choice of `log1p`
and the sort order below is independent of it. -/
def log0 : Nat → ℚ := fun _ => 0

def memRow1 : MemoryRow := ⟨1, "foo a", "", "general", 5, 0, 1⟩

def memRow2 : MemoryRow := ⟨2, "foo b", "", "general", 5, 0, 2⟩

/-- C6 counterexample: two rows with equal scores and equal importance but
different `updated_at` come back in table order, not in the
importance/updated_at tie-break order the claim asserts. -/
theorem searchMemory_tie_counterexample :
    searchMemory log0 [memRow1, memRow2] "foo" 10 = [memRow1, memRow2] ∧
    specSearchClaim log0 [memRow1, memRow2] "foo" 10 = [memRow2, memRow1] ∧
    memRow1 ≠ memRow2 := by
  have hm1 : matchScore (tokenize "foo") memRow1 = 1 := rfl
  have hm2 : matchScore (tokenize "foo") memRow2 = 1 := rfl
  have hs1 : score log0 (tokenize "foo") memRow1 = 3 / 2 := by
    unfold score
    rw [hm1]
    norm_num [memRow1, log0]
  have hs2 : score log0 (tokenize "foo") memRow2 = 3 / 2 := by
    unfold score
    rw [hm2]
    norm_num [memRow2, log0]
  have hd1 : decide (0 < score log0 (tokenize "foo") memRow1) = true :=
    decide_eq_true (by rw [hs1]; norm_num)
  have hd2 : decide (0 < score log0 (tokenize "foo") memRow2) = true :=
    decide_eq_true (by rw [hs2]; norm_num)
  have hge : scoreGe log0 (tokenize "foo") memRow1 memRow2 := by
    unfold scoreGe
    rw [hs1, hs2]
  have hnc : ¬ claimRel log0 (tokenize "foo") memRow1 memRow2 := by
    unfold claimRel
    rw [hs1, hs2]
    simp only [memRow1, memRow2]
    norm_num
  refine ⟨?_, ?_, by decide⟩
  · unfold searchMemory
    simp only [show (tokenize "foo").isEmpty = false from rfl, Bool.false_eq_true, if_false]
    rw [filter_map_pair, List.map_take]
    rw [insertionSort_map_fst log0 (tokenize "foo") _
      (by
        intro q hq
        obtain ⟨r, _, rfl⟩ := List.mem_map.mp hq
        rfl)]
    have hmapfst :
        (((([memRow1, memRow2] : List MemoryRow).filter
          (fun r => decide (0 < score log0 (tokenize "foo") r))).map
            (fun r => (r, score log0 (tokenize "foo") r))).map Prod.fst) =
        ([memRow1, memRow2] : List MemoryRow).filter
          (fun r => decide (0 < score log0 (tokenize "foo") r)) := by
      rw [List.map_map]
      have hidf : (Prod.fst ∘ fun r : MemoryRow => (r, score log0 (tokenize "foo") r)) = id := rfl
      rw [hidf, List.map_id]
    rw [hmapfst]
    rw [show (([memRow1, memRow2] : List MemoryRow).filter
        (fun r => decide (0 < score log0 (tokenize "foo") r))) = [memRow1, memRow2] by
      simp only [List.filter_cons, List.filter_nil, hd1, hd2]
      simp]
    rw [show List.insertionSort (scoreGe log0 (tokenize "foo")) [memRow1, memRow2] =
        [memRow1, memRow2] by
      simp only [List.insertionSort, List.orderedInsert]
      rw [if_pos hge]]
    rfl
  · unfold specSearchClaim
    simp only []
    rw [show (([memRow1, memRow2] : List MemoryRow).filter
        (fun r => decide (0 < score log0 (tokenize "foo") r))) = [memRow1, memRow2] by
      simp only [List.filter_cons, List.filter_nil, hd1, hd2]
      simp]
    rw [show List.insertionSort (claimRel log0 (tokenize "foo")) [memRow1, memRow2] =
        [memRow2, memRow1] by
      simp only [List.insertionSort, List.orderedInsert]
      rw [if_neg hnc]]
    rfl

end Helper

namespace Helper

/-! ## Token bucket rate limiter (src/core/ratelimit.ts)

Timestamps are integer milliseconds; `Math.floor((timePassed / intervalMs)
* tokensPerInterval)` is exact floor division `Int.fdiv (timePassed *
tokensPerInterval) intervalMs`, and `Math.ceil` likewise. -/

structure RateLimiter where
  tokensPerInterval : Nat
  intervalMs : Nat
  maxTokens : Nat
  tokens : Int
  lastRefill : Int
deriving Repr, DecidableEq

/-- The constructor: a full bucket stamped with the current time. -/
def mkRateLimiter (tokensPerInterval intervalMs maxTokens : Nat) (now : Int) : RateLimiter :=
  { tokensPerInterval := tokensPerInterval, intervalMs := intervalMs,
    maxTokens := maxTokens, tokens := maxTokens, lastRefill := now }

/-- `refill()`: add the pro-rata tokens for the elapsed time, capped at
capacity; the timestamp advances only when at least one token is added. -/
def RateLimiter.refill (rl : RateLimiter) (now : Int) : RateLimiter :=
  let timePassed := now - rl.lastRefill
  let tokensToAdd := Int.fdiv (timePassed * rl.tokensPerInterval) rl.intervalMs
  if 0 < tokensToAdd then
    { rl with tokens := min (rl.maxTokens : Int) (rl.tokens + tokensToAdd),
              lastRefill := now }
  else rl

/-- `Math.ceil(a / b)` for integer `a` and positive integer `b`. -/
def ceilDiv (a b : Int) : Int := -(Int.fdiv (-a) b)

/-- `acquire(tokens)`: the waited milliseconds and the new state. -/
def RateLimiter.acquire (rl : RateLimiter) (k : Nat) (now : Int) : Int × RateLimiter :=
  let rl1 := rl.refill now
  if (k : Int) ≤ rl1.tokens then
    (0, { rl1 with tokens := rl1.tokens - k })
  else
    let tokensNeeded := (k : Int) - rl1.tokens
    let waitMs := ceilDiv (tokensNeeded * rl1.intervalMs) rl1.tokensPerInterval
    let rl2 := rl1.refill (now + waitMs)
    (waitMs, { rl2 with tokens := rl2.tokens - k })

theorem ceilDiv_ge (a b : Int) (hb : 0 < b) :
    (a : ℚ) / (b : ℚ) ≤ ((ceilDiv a b : Int) : ℚ) := by
  have hml : b * ((-a) / b) ≤ -a := by
    have he := Int.ediv_add_emod (-a) b
    have hm := Int.emod_nonneg (-a) (ne_of_gt hb)
    omega
  have h3 : a ≤ b * ceilDiv a b := by
    unfold ceilDiv
    rw [Int.fdiv_eq_ediv _ (le_of_lt hb), mul_neg]
    linarith
  rw [div_le_iff₀ (by exact_mod_cast hb : (0 : ℚ) < (b : ℚ))]
  have h4 : (a : ℚ) ≤ (b : ℚ) * ((ceilDiv a b : Int) : ℚ) := by exact_mod_cast h3
  linarith

/-- C8: acquiring `k ≤ available` tokens consumes immediately with no wait;
acquiring `k > available` waits at least
`(k - available) * intervalMs / tokensPerInterval` milliseconds before
consuming; refill never raises the token count above capacity. -/
theorem rateLimiter_acquire_correct (rl : RateLimiter) (k : Nat) (now : Int)
    (hper : 0 < rl.tokensPerInterval) :
    ((k : Int) ≤ (rl.refill now).tokens →
      (rl.acquire k now).1 = 0 ∧
      (rl.acquire k now).2.tokens = (rl.refill now).tokens - k) ∧
    ((rl.refill now).tokens < (k : Int) →
      (((k : Int) - (rl.refill now).tokens : Int) : ℚ) * (rl.intervalMs : ℚ) /
          (rl.tokensPerInterval : ℚ) ≤ ((rl.acquire k now).1 : ℚ)) ∧
    (rl.tokens ≤ (rl.maxTokens : Int) → (rl.refill now).tokens ≤ (rl.maxTokens : Int)) := by
  have hfields : (rl.refill now).tokensPerInterval = rl.tokensPerInterval ∧
      (rl.refill now).intervalMs = rl.intervalMs := by
    unfold RateLimiter.refill
    by_cases hc : 0 < Int.fdiv ((now - rl.lastRefill) * (rl.tokensPerInterval : Int))
        (rl.intervalMs : Int)
    · simp [hc]
    · simp [hc]
  refine ⟨?_, ?_, ?_⟩
  · intro h
    unfold RateLimiter.acquire
    rw [if_pos h]
    exact ⟨rfl, rfl⟩
  · intro h
    unfold RateLimiter.acquire
    rw [if_neg (not_le.mpr h)]
    have hper2 : (0 : Int) < ((rl.refill now).tokensPerInterval : Int) := by
      rw [hfields.1]
      exact_mod_cast hper
    have hcd := ceilDiv_ge (((k : Int) - (rl.refill now).tokens) *
      ((rl.refill now).intervalMs : Int)) ((rl.refill now).tokensPerInterval : Int) hper2
    show (((k : Int) - (rl.refill now).tokens : Int) : ℚ) * (rl.intervalMs : ℚ) /
        (rl.tokensPerInterval : ℚ) ≤
      ((ceilDiv (((k : Int) - (rl.refill now).tokens) * ((rl.refill now).intervalMs : Int))
        ((rl.refill now).tokensPerInterval : Int) : Int) : ℚ)
    rw [hfields.1, hfields.2] at hcd
    rw [hfields.1, hfields.2]
    calc (((k : Int) - (rl.refill now).tokens : Int) : ℚ) * (rl.intervalMs : ℚ) /
        (rl.tokensPerInterval : ℚ)
        = ((((k : Int) - (rl.refill now).tokens) * (rl.intervalMs : Int) : Int) : ℚ) /
          ((rl.tokensPerInterval : Nat) : ℚ) := by push_cast; ring
      _ ≤ _ := hcd
  · intro h
    unfold RateLimiter.refill
    by_cases hc : 0 < Int.fdiv ((now - rl.lastRefill) * (rl.tokensPerInterval : Int))
        (rl.intervalMs : Int)
    · simp only [hc, if_true]
      exact min_le_left _ _
    · simp only [hc, if_false]
      exact h

/-- Witness for `rateLimiter_acquire_correct`: a full bucket of ten tokens
hands out three immediately. -/
theorem rateLimiter_acquire_correct_witness :
    (RateLimiter.acquire ⟨10, 1000, 10, 10, 0⟩ 3 0).1 = 0 ∧
    (RateLimiter.acquire ⟨10, 1000, 10, 10, 0⟩ 3 0).2.tokens =
      ((⟨10, 1000, 10, 10, 0⟩ : RateLimiter).refill 0).tokens - 3 :=
  (rateLimiter_acquire_correct ⟨10, 1000, 10, 10, 0⟩ 3 0 (by decide)).1 (by decide)

end Helper

namespace Helper

/-! ## Executor retry loop (executeToolCalls, retry variant of the executor)

One tool invocation is an oracle `behave : Nat → Except String ToolResult`:
attempt `i` either returns a `ToolResult` (which `registry.execute` produces
even for tool-local failures) or throws with an error string.  The loop
tries up to `maxRetries + 1 = 3` attempts, sleeping `2000 * (attempt + 1)`
milliseconds before each retry. -/

def EXECUTION_MAX_RETRIES : Nat := 2

/-- The retry loop, from attempt `attempt` with `fuel` retries left.
Returns the final result and the list of sleeps (in ms) performed. -/
def retryGo (behave : Nat → Except String ToolResult) : Nat → Nat → ToolResult × List Nat
| attempt, 0 =>
    (match behave attempt with
      | Except.ok r => (r, [])
      | Except.error e =>
          ({ success := false, output := "",
             error := some ("Failed after " ++ toString (EXECUTION_MAX_RETRIES + 1) ++
               " attempts: " ++ e),
             executionTime := some 0 }, []))
| attempt, fuel + 1 =>
    (match behave attempt with
      | Except.ok r => (r, [])
      | Except.error _ =>
          let delay := 2000 * (attempt + 1)
          let rest := retryGo behave (attempt + 1) fuel
          (rest.1, delay :: rest.2))

/-- Execute one tool call with the retry policy of the executor. -/
def executeWithRetry (behave : Nat → Except String ToolResult) : ToolResult × List Nat :=
  retryGo behave 0 EXECUTION_MAX_RETRIES

/-- The batch path: normalize/execute each call in order (`behaves` gives the
per-attempt behaviour of each named call), shaping each result. -/
def executeToolCalls (behaves : String → String → Nat → Except String ToolResult)
    (maxChars : Nat) (calls : List (String × String)) :
    List (String × ToolResult) × List Nat :=
  calls.foldr
    (fun c acc =>
      let one := executeWithRetry (behaves c.1 c.2)
      ((c.1, truncateResultIfNeeded maxChars one.1) :: acc.1, one.2 ++ acc.2))
    ([], [])

/-- C7: when an invocation throws, the executor retries up to 2 more times,
sleeping 2 s before the first retry and 4 s before the second, and gives up
with a failure result after the third throw; a first-attempt return is
passed through with no retry and no sleep. -/
theorem executor_retry_backoff (behave : Nat → Except String ToolResult) :
    (∀ r, behave 0 = Except.ok r → executeWithRetry behave = (r, [])) ∧
    (∀ e r, behave 0 = Except.error e → behave 1 = Except.ok r →
      executeWithRetry behave = (r, [2000])) ∧
    (∀ e0 e1 r, behave 0 = Except.error e0 → behave 1 = Except.error e1 →
      behave 2 = Except.ok r → executeWithRetry behave = (r, [2000, 4000])) ∧
    (∀ e0 e1 e2, behave 0 = Except.error e0 → behave 1 = Except.error e1 →
      behave 2 = Except.error e2 →
      (executeWithRetry behave).1.success = false ∧
      (executeWithRetry behave).2 = [2000, 4000]) := by
  refine ⟨?_, ?_, ?_, ?_⟩
  · intro r h0
    unfold executeWithRetry EXECUTION_MAX_RETRIES retryGo
    rw [h0]
  · intro e r h0 h1
    unfold executeWithRetry EXECUTION_MAX_RETRIES retryGo retryGo
    rw [h0, h1]
  · intro e0 e1 r h0 h1 h2
    unfold executeWithRetry EXECUTION_MAX_RETRIES retryGo retryGo retryGo
    rw [h0, h1, h2]
  · intro e0 e1 e2 h0 h1 h2
    unfold executeWithRetry EXECUTION_MAX_RETRIES retryGo retryGo retryGo
    rw [h0, h1, h2]
    exact ⟨rfl, rfl⟩

/-- Witness for `executor_retry_backoff`: a tool that throws twice and then
returns is retried with sleeps of 2 s and 4 s. -/
theorem executor_retry_backoff_witness :
    executeWithRetry (fun i => if i < 2 then Except.error "boom"
      else Except.ok { success := true, output := "ok" }) =
      ({ success := true, output := "ok" }, [2000, 4000]) :=
  (executor_retry_backoff (fun i => if i < 2 then Except.error "boom"
    else Except.ok { success := true, output := "ok" })).2.2.1
    "boom" "boom" { success := true, output := "ok" } rfl rfl rfl

end Helper

namespace Helper

/-! ## ReAct agent loop (src/agent/agent.ts) and task rows (src/db/tasks.ts)

The run is deterministic given a script of LLM responses (the list the
successive `llm.chat` calls return; an exhausted script models the LLM call
throwing) and a pure tool oracle.  Neither shutdown nor client abort is
modelled: `isShutdown()` and `signal.aborted` stay false for the whole run.
Task rows record every status the row takes, in write order, so that
later writes to a terminal status are visible. -/

inductive TaskStatus
| running
| completed
| failed
| stuck
deriving Repr, DecidableEq

structure TaskState where
  status : TaskStatus
  result : Option String
  iterations : Nat
  statusWrites : List TaskStatus
deriving Repr, DecidableEq

/-- `createTask`: a fresh row with the schema default status `running`. -/
def initialTask : TaskState :=
  { status := .running, result := none, iterations := 0, statusWrites := [.running] }

/-- `completeTask`: `UPDATE tasks SET status = 'completed', result = ?`. -/
def completeTask (t : TaskState) (res : String) : TaskState :=
  { t with status := .completed, result := some res,
           statusWrites := t.statusWrites ++ [.completed] }

/-- `failTask`: `UPDATE tasks SET status = 'failed', result = ?`. -/
def failTask (t : TaskState) (err : String) : TaskState :=
  { t with status := .failed, result := some err,
           statusWrites := t.statusWrites ++ [.failed] }

/-- `markStuck`: `UPDATE tasks SET status = 'stuck', result = ?`. -/
def markStuck (t : TaskState) (reason : String) : TaskState :=
  { t with status := .stuck, result := some reason,
           statusWrites := t.statusWrites ++ [.stuck] }

/-- `incrementIterations`. -/
def incrementIterations (t : TaskState) : TaskState :=
  { t with iterations := t.iterations + 1 }

/-- One requested tool call; `args` is the `JSON.stringify` of its
argument object. -/
structure FunctionCall where
  name : String
  args : String
deriving Repr, DecidableEq

/-- One LLM chat response. -/
structure LLMResponse where
  thinking : Option String
  text : Option String
  functionCalls : List FunctionCall
deriving Repr, DecidableEq

inductive AgentEvent
| thinking (text : String)
| text (t : String)
| tool_call (name : String) (args : String)
| tool_result (name : String) (result : ToolResult)
| stuck_warning (message : String)
| error (message : String)
| done (summary : String)
deriving Repr, DecidableEq

/-- The plain executor used by the agent (`executeToolCalls` in
src/agent/executor.ts): execute each call in order and shape each result. -/
def execSimple (toolExec : String → String → ToolResult) (maxChars : Nat)
    (calls : List FunctionCall) : List (String × ToolResult) :=
  calls.map (fun c => (c.name, truncateResultIfNeeded maxChars (toolExec c.name c.args)))

/-- The signal environment at one sampling point: the values `isShutdown()`
and `signal?.aborted` return there.  The run samples one state at each
check — the `while` condition at the top of each iteration, and the
`if (signal?.aborted) break` between `executeToolCalls` and the
`tool_result` emission loop.  An exhausted list means both flags read
false from then on. -/
structure SigState where
  shutdown : Bool
  aborted : Bool
deriving Repr, DecidableEq

/-- Consume the next signal sample. -/
def popSig : List SigState → SigState × List SigState
| [] => (⟨false, false⟩, [])
| s :: r => (s, r)

/-- The loop-exit reason:
`signal?.aborted ? "Client disconnected" : "Shutdown requested"`. -/
def stopReason (s : SigState) : String :=
  if s.aborted then "Client disconnected" else "Shutdown requested"

/-- The agent loop, one iteration per script entry.  Each iteration first
samples the `while` condition: a set flag exits the loop, which runs
`failTask` and emits `done`.  On a response with no tool calls the task
completes and `done` is emitted; otherwise the calls are recorded and
executed, then `signal?.aborted` is sampled again: if it fired during tool
execution the loop breaks — the batch's `tool_result` events are never
emitted and the loop exit runs `failTask` and emits `done` (the flag is
monotone in the program, so the exit reason is `Client disconnected`).
Otherwise the results are emitted and the stuck detector is consulted: a
terminating verdict runs `markStuck`, emits `stuck_warning` and `error`,
and throws `StuckError` — which the surrounding catch block turns into
`failTask` plus a second `error` event; a warn-only verdict emits
`stuck_warning` and continues.  An exhausted script models the LLM call
throwing, handled by the same catch block. -/
def runLoop (hash : String → Nat) (toolExec : String → String → ToolResult)
    (maxChars : Nat) :
    List LLMResponse → List SigState → StuckDetector → TaskState →
      List AgentEvent × TaskState
| [], sigs, _, task =>
    let st := (popSig sigs).1
    if st.shutdown || st.aborted then
      ([AgentEvent.done ("Agent stopped: " ++ stopReason st ++ ".")],
       failTask task (stopReason st))
    else
      let task1 := incrementIterations task
      ([AgentEvent.error "LLM request failed"], failTask task1 "LLM request failed")
| resp :: rest, sigs, det, task =>
    let st := (popSig sigs).1
    let sigs1 := (popSig sigs).2
    if st.shutdown || st.aborted then
      ([AgentEvent.done ("Agent stopped: " ++ stopReason st ++ ".")],
       failTask task (stopReason st))
    else
      let task1 := incrementIterations task
      let evs0 := (match resp.thinking with
          | some t => [AgentEvent.thinking t]
          | none => []) ++
        (match resp.text with
          | some t => [AgentEvent.text t]
          | none => [])
      match resp.functionCalls with
      | [] =>
          let summary := match resp.text with
            | some t => t
            | none => "Task completed."
          (evs0 ++ [AgentEvent.done summary], completeTask task1 (summary.take 500))
      | fc0 :: fcs =>
          let callEvs := (fc0 :: fcs).map fun fc => AgentEvent.tool_call fc.name fc.args
          let det1 := recordAll hash det ((fc0 :: fcs).map fun fc => (fc.name, fc.args))
          let frs := execSimple toolExec maxChars (fc0 :: fcs)
          let st2 := (popSig sigs1).1
          let sigs2 := (popSig sigs1).2
          if st2.aborted then
            (evs0 ++ callEvs ++ [AgentEvent.done "Agent stopped: Client disconnected."],
             failTask task1 "Client disconnected")
          else
            let resEvs := frs.map fun fr => AgentEvent.tool_result fr.1 fr.2
            let chk := det1.check
            if chk.isStuck then
              if chk.shouldTerminate then
                let msg := match chk.message with
                  | some m => m
                  | none => "Stuck"
                (evs0 ++ callEvs ++ resEvs ++
                  [AgentEvent.stuck_warning msg, AgentEvent.error msg, AgentEvent.error msg],
                 failTask (markStuck task1 msg) msg)
              else
                let msg := match chk.message with
                  | some m => m
                  | none => "Stuck"
                let next := runLoop hash toolExec maxChars rest sigs2 det1 task1
                (evs0 ++ callEvs ++ resEvs ++ (AgentEvent.stuck_warning msg :: next.1),
                 next.2)
            else
              let next := runLoop hash toolExec maxChars rest sigs2 det1 task1
              (evs0 ++ callEvs ++ resEvs ++ next.1, next.2)

/-- `runAgent(userMessage, options)`: create the task, build the detector
from the (clamped) iteration bound and drive the loop under a schedule of
signal samples. -/
def runAgent (hash : String → Nat) (toolExec : String → String → ToolResult)
    (maxChars : Nat) (maxIterations : Nat) (script : List LLMResponse)
    (sigs : List SigState) : List AgentEvent × TaskState :=
  runLoop hash toolExec maxChars script sigs (mkStuckDetector maxIterations) initialTask

/-- Parser modes for the event regex
`(thinking|text|tool_call+ tool_result+ (stuck_warning)?)* (done|error)`. -/
inductive ParseMode
| body
| calls
| results
deriving Repr, DecidableEq

/-- `[AgentEvent.error _]` recognizer, for the amended terminal. -/
def isErrorOnly : List AgentEvent → Bool
| [AgentEvent.error _] => true
| _ => false

/-- Deterministic matcher for the claim regex
`(thinking|text|tool_call+ tool_result+ (stuck_warning)?)* (done|error)`:
`calls` is entered after one `tool_call`, `results` after one
`tool_result`; the terminal must be the single last event. -/
def claimCheckFrom : ParseMode → List AgentEvent → Bool
| .body, [] => false
| .body, e :: rest =>
    match e with
    | .done _ => rest.isEmpty
    | .error _ => rest.isEmpty
    | .thinking _ => claimCheckFrom .body rest
    | .text _ => claimCheckFrom .body rest
    | .tool_call _ _ => claimCheckFrom .calls rest
    | _ => false
| .calls, [] => false
| .calls, e :: rest =>
    match e with
    | .tool_call _ _ => claimCheckFrom .calls rest
    | .tool_result _ _ => claimCheckFrom .results rest
    | _ => false
| .results, [] => false
| .results, e :: rest =>
    match e with
    | .tool_result _ _ => claimCheckFrom .results rest
    | .stuck_warning _ => claimCheckFrom .body rest
    | .done _ => rest.isEmpty
    | .error _ => rest.isEmpty
    | .thinking _ => claimCheckFrom .body rest
    | .text _ => claimCheckFrom .body rest
    | .tool_call _ _ => claimCheckFrom .calls rest

/-- Matcher for the amended regex, which additionally allows the terminal
`error error` produced by a stuck termination and the terminal
`tool_call+ done` produced by a client abort observed between tool
execution and result emission (the `done` case of `calls` mode). -/
def amendedCheckFrom : ParseMode → List AgentEvent → Bool
| .body, [] => false
| .body, e :: rest =>
    match e with
    | .done _ => rest.isEmpty
    | .error _ => rest.isEmpty || isErrorOnly rest
    | .thinking _ => amendedCheckFrom .body rest
    | .text _ => amendedCheckFrom .body rest
    | .tool_call _ _ => amendedCheckFrom .calls rest
    | _ => false
| .calls, [] => false
| .calls, e :: rest =>
    match e with
    | .tool_call _ _ => amendedCheckFrom .calls rest
    | .tool_result _ _ => amendedCheckFrom .results rest
    | .done _ => rest.isEmpty
    | _ => false
| .results, [] => false
| .results, e :: rest =>
    match e with
    | .tool_result _ _ => amendedCheckFrom .results rest
    | .stuck_warning _ => amendedCheckFrom .body rest
    | .done _ => rest.isEmpty
    | .error _ => rest.isEmpty || isErrorOnly rest
    | .thinking _ => amendedCheckFrom .body rest
    | .text _ => amendedCheckFrom .body rest
    | .tool_call _ _ => amendedCheckFrom .calls rest

/-- The claim regex over a whole event stream. -/
def claimRegexOk (evs : List AgentEvent) : Bool := claimCheckFrom .body evs

/-- The amended regex over a whole event stream. -/
def amendedRegexOk (evs : List AgentEvent) : Bool := amendedCheckFrom .body evs

end Helper

namespace Helper

theorem amended_body_thinking (t : String) (l : List AgentEvent) :
    amendedCheckFrom .body (AgentEvent.thinking t :: l) = amendedCheckFrom .body l := rfl

theorem amended_body_text (t : String) (l : List AgentEvent) :
    amendedCheckFrom .body (AgentEvent.text t :: l) = amendedCheckFrom .body l := rfl

theorem amended_body_tool_call (n a : String) (l : List AgentEvent) :
    amendedCheckFrom .body (AgentEvent.tool_call n a :: l) = amendedCheckFrom .calls l := rfl

theorem amended_results_thinking (t : String) (l : List AgentEvent) :
    amendedCheckFrom .results (AgentEvent.thinking t :: l) = amendedCheckFrom .body l := rfl

theorem amended_results_text (t : String) (l : List AgentEvent) :
    amendedCheckFrom .results (AgentEvent.text t :: l) = amendedCheckFrom .body l := rfl

theorem amended_results_tool_call (n a : String) (l : List AgentEvent) :
    amendedCheckFrom .results (AgentEvent.tool_call n a :: l) = amendedCheckFrom .calls l := rfl

theorem amended_results_stuck_warning (m : String) (l : List AgentEvent) :
    amendedCheckFrom .results (AgentEvent.stuck_warning m :: l) =
      amendedCheckFrom .body l := rfl

theorem amended_calls_map_append (cs : List FunctionCall) (l : List AgentEvent) :
    amendedCheckFrom .calls ((cs.map fun fc => AgentEvent.tool_call fc.name fc.args) ++ l) =
      amendedCheckFrom .calls l := by
  induction cs with
  | nil => rfl
  | cons c cs ih => simpa using ih

theorem amended_results_map_append (rs : List (String × ToolResult)) (l : List AgentEvent) :
    amendedCheckFrom .results ((rs.map fun fr => AgentEvent.tool_result fr.1 fr.2) ++ l) =
      amendedCheckFrom .results l := by
  induction rs with
  | nil => rfl
  | cons r rs ih => simpa using ih

theorem amended_calls_tool_result (n : String) (r : ToolResult) (l : List AgentEvent) :
    amendedCheckFrom .calls (AgentEvent.tool_result n r :: l) =
      amendedCheckFrom .results l := rfl

theorem runLoop_amended (hash : String → Nat) (toolExec : String → String → ToolResult)
    (maxChars : Nat) (script : List LLMResponse) :
    ∀ sigs det task,
      amendedCheckFrom .body
        (runLoop hash toolExec maxChars script sigs det task).1 = true ∧
      amendedCheckFrom .results
        (runLoop hash toolExec maxChars script sigs det task).1 = true := by
  induction script with
  | nil =>
      intro sigs det task
      show amendedCheckFrom .body
        (runLoop hash toolExec maxChars [] sigs det task).1 = true ∧ _
      rw [runLoop]
      simp only []
      by_cases hstop : ((popSig sigs).1.shutdown || (popSig sigs).1.aborted) = true
      · rw [if_pos hstop]
        exact ⟨rfl, rfl⟩
      · rw [if_neg hstop]
        exact ⟨rfl, rfl⟩
  | cons resp rest ih =>
      intro sigs det task
      obtain ⟨hthink, htext, calls⟩ := resp
      cases calls with
      | nil =>
          show amendedCheckFrom .body (runLoop hash toolExec maxChars
              (⟨hthink, htext, []⟩ :: rest) sigs det task).1 = true ∧ _
          rw [runLoop]
          simp only []
          by_cases hstop : ((popSig sigs).1.shutdown || (popSig sigs).1.aborted) = true
          · rw [if_pos hstop]
            exact ⟨rfl, rfl⟩
          · rw [if_neg hstop]
            cases hthink <;> cases htext <;> exact ⟨rfl, rfl⟩
      | cons fc0 fcs =>
          show amendedCheckFrom .body (runLoop hash toolExec maxChars
              (⟨hthink, htext, fc0 :: fcs⟩ :: rest) sigs det task).1 = true ∧ _
          rw [runLoop]
          simp only []
          by_cases hstop : ((popSig sigs).1.shutdown || (popSig sigs).1.aborted) = true
          · rw [if_pos hstop]
            exact ⟨rfl, rfl⟩
          · rw [if_neg hstop]
            by_cases hab : (popSig (popSig sigs).2).1.aborted = true
            · rw [if_pos hab]
              constructor <;> (cases hthink <;> cases htext <;>
                (simp only [List.cons_append, List.nil_append, List.append_assoc,
                  List.map_cons, execSimple,
                  amended_body_thinking, amended_body_text, amended_body_tool_call,
                  amended_results_thinking, amended_results_text, amended_results_tool_call,
                  amended_results_stuck_warning, amended_calls_tool_result,
                  amended_calls_map_append, amended_results_map_append]
                 rfl))
            · rw [if_neg hab]
              by_cases h1 : (recordAll hash det
                  ((fc0 :: fcs).map fun fc => (fc.name, fc.args))).check.isStuck = true
              · rw [if_pos h1]
                by_cases h2 : (recordAll hash det
                    ((fc0 :: fcs).map fun fc =>
                      (fc.name, fc.args))).check.shouldTerminate = true
                · rw [if_pos h2]
                  constructor <;> (cases hthink <;> cases htext <;>
                    (simp only [List.cons_append, List.nil_append, List.append_assoc,
                      List.map_cons, execSimple,
                      amended_body_thinking, amended_body_text, amended_body_tool_call,
                      amended_results_thinking, amended_results_text,
                      amended_results_tool_call, amended_results_stuck_warning,
                      amended_calls_tool_result,
                      amended_calls_map_append, amended_results_map_append]
                     rfl))
                · rw [if_neg h2]
                  constructor <;> (cases hthink <;> cases htext <;>
                    (simp only [List.cons_append, List.nil_append, List.append_assoc,
                      List.map_cons, execSimple,
                      amended_body_thinking, amended_body_text, amended_body_tool_call,
                      amended_results_thinking, amended_results_text,
                      amended_results_tool_call, amended_results_stuck_warning,
                      amended_calls_tool_result,
                      amended_calls_map_append, amended_results_map_append]
                     exact (ih _ _ _).1))
              · rw [if_neg h1]
                constructor <;> (cases hthink <;> cases htext <;>
                  (simp only [List.cons_append, List.nil_append, List.append_assoc,
                    List.map_cons, execSimple,
                    amended_body_thinking, amended_body_text, amended_body_tool_call,
                    amended_results_thinking, amended_results_text,
                    amended_results_tool_call, amended_results_stuck_warning,
                    amended_calls_tool_result,
                    amended_calls_map_append, amended_results_map_append]
                   exact (ih _ _ _).2))

end Helper

namespace Helper

/-- C1 (amended): for every run, under every schedule of shutdown/abort
signal samples, the emitted event sequence matches
`(thinking|text|tool_call+ tool_result+ (stuck_warning)?)* (done | error | error error | tool_call+ done)`:
as the claim states except that a stuck termination ends the stream with
`stuck_warning` followed by two `error` events (the explicit `error` yield
plus the one emitted by the catch block for the thrown `StuckError`), and
a client abort observed between tool execution and result emission ends
the stream with the batch's `tool_call` events followed directly by
`done`, their `tool_result` events never being emitted. -/
theorem runAgent_event_regex (hash : String → Nat)
    (toolExec : String → String → ToolResult)
    (maxChars maxIterations : Nat) (script : List LLMResponse)
    (sigs : List SigState) :
    amendedRegexOk (runAgent hash toolExec maxChars maxIterations script sigs).1 = true :=
  (runLoop_amended hash toolExec maxChars script sigs (mkStuckDetector maxIterations)
    initialTask).1

/-- C1 counterexample: with `max_iterations = 1` and an LLM response carrying
one tool call, the run emits
`tool_call, tool_result, stuck_warning, error, error`, which the claimed
regex rejects: a second `error` event follows the terminal `error`. -/
theorem runAgent_claim_regex_counterexample :
    claimRegexOk (runAgent (fun _ => 0) (fun _ _ => { success := true, output := "ok" })
      10000 1 [⟨none, none, [⟨"shell", "ls"⟩]⟩] []).1 = false := rfl

/-- C2 is violated by the code: on a stuck termination the run first writes
status `stuck` via `markStuck`, but the thrown `StuckError` reaches the
generic catch block, whose `failTask` overwrites the terminal status; the
task ends with status `failed`, so the `stuck` status does not persist. -/
theorem stuck_status_overwritten :
    (runAgent (fun _ => 0) (fun _ _ => { success := true, output := "ok" })
      10000 1 [⟨none, none, [⟨"shell", "ls"⟩]⟩] []).2.statusWrites =
      [TaskStatus.running, TaskStatus.stuck, TaskStatus.failed] ∧
    (runAgent (fun _ => 0) (fun _ _ => { success := true, output := "ok" })
      10000 1 [⟨none, none, [⟨"shell", "ls"⟩]⟩] []).2.status = TaskStatus.failed :=
  ⟨rfl, rfl⟩

end Helper
